import Mathlib

/-
Verification development for multiping.

Shallow embedding of the ICMP codec (src/icmp.rs) and of the host
statistics model (src/lib.rs).  Byte buffers are `List Nat`; the u8
invariant (every element below 256) is carried as a hypothesis where a
theorem needs it.  Rust slice indexing that can panic on short input is
modelled with `Option` (`none` = out-of-bounds panic); machine integers
are `Nat` with an explicit `% 2^w` wherever the source arithmetic is on
a fixed-width integer, and `f64`/`f32` statistics are modelled over `ℚ`
(all claims about them only involve values and operations on which the
floating computation is exact or order-identical).
-/

/-- Rust `be_u16` (src/icmp.rs:282): big-endian u16 from the two bytes at
`start`; `none` models the slice-indexing panic when fewer than two bytes
remain. -/
def be_u16 (bytes : List Nat) (start : Nat) : Option Nat :=
  match bytes.get? start, bytes.get? (start + 1) with
  | some b0, some b1 => some (b0 * 256 + b1)
  | _, _ => none

/-- Rust `be_u32` (src/icmp.rs:286): big-endian u32 from the four bytes at
`start`; `none` models the slice-indexing panic. -/
def be_u32 (bytes : List Nat) (start : Nat) : Option Nat :=
  match bytes.get? start, bytes.get? (start + 1), bytes.get? (start + 2), bytes.get? (start + 3) with
  | some b0, some b1, some b2, some b3 =>
    some (b0 * 16777216 + b1 * 65536 + b2 * 256 + b3)
  | _, _, _, _ => none

/-- Rust `msgbytes[8..].to_vec()`: panics (`none`) when the buffer is
shorter than 8 bytes, otherwise the bytes from offset 8 on. -/
def sliceFrom8 (bytes : List Nat) : Option (List Nat) :=
  if 8 ≤ bytes.length then some (bytes.drop 8) else none

/-- Rust enum `DestinationUnreachableCode` (src/icmp.rs:75). -/
inductive DestinationUnreachableCode where
  | NetworkUnreachable
  | HostUnreachable
  | ProtocolUnreachable
  | PortUnreachable
  | FragmentationRequired
  | SourceRouteFailed
  | NetworkUnknown
  | DestHostUnknown
  | SourceHostIsolated
  | NetAdministrativelyProhibited
  | HostAdministrativelyProhibited
  | NetworkUnreachableForToS
  | HostUnreachableForToS
  | CommAdministrativelyProhibited
  | HostPrecedenceViolation
  | PrecedenceCuttoffInEffect
  deriving DecidableEq, Repr

/-- Rust enum `RedirectMsgCode` (src/icmp.rs:96). -/
inductive RedirectMsgCode where
  | Network
  | Host
  | ToSAndNetwork
  | ToSAndHost
  deriving DecidableEq, Repr

/-- Rust enum `TimeExceededCode` (src/icmp.rs:105). -/
inductive TimeExceededCode where
  | ExpiredInTransit
  | FragmentReassemblyTimeExceeded
  deriving DecidableEq, Repr

/-- Rust enum `BadIPHeaderCode` (src/icmp.rs:112). -/
inductive BadIPHeaderCode where
  | PointerIndicatesError
  | MissingRequiredOption
  | BadLength
  deriving DecidableEq, Repr

/-- Rust enum `IntoICMPv4MessageError` (src/icmp.rs:119). -/
inductive IntoICMPv4MessageError where
  | UnknownType
  | UnknownCode
  | NotLongEnough
  | OtherError
  deriving DecidableEq, Repr

/-- Rust enum `ICMPv4Type` (src/icmp.rs:24); u8/u16/u32 fields become `Nat`. -/
inductive ICMPv4Type where
  | EchoReply (identifier sequence_num : Nat)
  | DestinationUnreachable (code : DestinationUnreachableCode) (length next_hop_mtu : Nat)
  | SourceQuench
  | RedirectMessage (code : RedirectMsgCode) (address : Nat)
  | AlternateHostAddress
  | EchoRequest (identifier sequence_num : Nat)
  | RouterAdvertisement
  | RouterSolicitation
  | TimeExceeded (code : TimeExceededCode)
  | BadIPHeader (code : BadIPHeaderCode)
  | Timestamp (identifier sequence_num ts_originate ts_receive ts_transmit : Nat)
  | TimestampReply (identifier sequence_num ts_originate ts_receive ts_transmit : Nat)
  deriving DecidableEq, Repr

/-- Rust struct `ICMPv4Message` (src/icmp.rs:13). -/
structure ICMPv4Message where
  icmpv4_type : ICMPv4Type
  icmpv4_checksum : Nat
  icmpv4_data : List Nat
  deriving DecidableEq, Repr

/-- Outcome of `ICMPv4Message::try_from`: the `Ok`/`Err` results of the
Rust function, plus `panicked` for the runs that abort with an
out-of-bounds slice index instead of returning. -/
inductive V4Result where
  | ok (m : ICMPv4Message)
  | err (e : IntoICMPv4MessageError)
  | panicked
  deriving DecidableEq, Repr

/-- Lifts the `Option`-modelled tail of a decode arm (only slice reads
remain, so the only failure is a panic) into a `V4Result`. -/
def ofOption : Option ICMPv4Message → V4Result
  | some m => .ok m
  | none => .panicked

/-- Rust `parse_unreachable_code` (src/icmp.rs:247). -/
def parse_unreachable_code (value : Nat) : Except IntoICMPv4MessageError DestinationUnreachableCode :=
  match value with
  | 0 => .ok .NetworkUnreachable
  | 1 => .ok .HostUnreachable
  | 2 => .ok .ProtocolUnreachable
  | 3 => .ok .PortUnreachable
  | 4 => .ok .FragmentationRequired
  | 5 => .ok .SourceRouteFailed
  | 6 => .ok .NetworkUnknown
  | 7 => .ok .DestHostUnknown
  | 8 => .ok .SourceHostIsolated
  | 9 => .ok .NetAdministrativelyProhibited
  | 10 => .ok .HostAdministrativelyProhibited
  | 11 => .ok .NetworkUnreachableForToS
  | 12 => .ok .HostUnreachableForToS
  | 13 => .ok .CommAdministrativelyProhibited
  | 14 => .ok .HostPrecedenceViolation
  | 15 => .ok .PrecedenceCuttoffInEffect
  | _ => .error .UnknownCode

/-- Rust `parse_redirect_code` (src/icmp.rs:269). -/
def parse_redirect_code (value : Nat) : Except IntoICMPv4MessageError RedirectMsgCode :=
  match value with
  | 0 => .ok .Network
  | 1 => .ok .Host
  | 2 => .ok .ToSAndNetwork
  | 3 => .ok .ToSAndHost
  | _ => .error .UnknownCode

/-- Shared tail of the arms whose variant fields are already built:
read the checksum at offset 2, then take the data from offset 8 on
(`msgbytes[8..]`), panicking when the buffer is shorter. -/
def finishV4 (msgbytes : List Nat) (ty : ICMPv4Type) : V4Result :=
  ofOption (do
    let ck ← be_u16 msgbytes 2
    let data ← sliceFrom8 msgbytes
    pure { icmpv4_type := ty, icmpv4_checksum := ck, icmpv4_data := data })

/-- Rust `ICMPv4Message::try_from` (src/icmp.rs:131), with the reads of
each arm performed in the source's evaluation order, so that an input
yields `err`/`panicked` exactly when the source returns `Err`/aborts. -/
def tryFromV4 (msgbytes : List Nat) : V4Result :=
  match msgbytes.get? 0 with
  | none => .panicked
  | some t =>
    match t with
    | 0 => ofOption (do
        let identifier ← be_u16 msgbytes 4
        let sequence_num ← be_u16 msgbytes 6
        let ck ← be_u16 msgbytes 2
        let data ← sliceFrom8 msgbytes
        pure { icmpv4_type := .EchoReply identifier sequence_num,
               icmpv4_checksum := ck, icmpv4_data := data })
    | 3 =>
      match msgbytes.get? 1 with
      | none => .panicked
      | some cb =>
        match parse_unreachable_code cb with
        | .error e => .err e
        | .ok code => ofOption (do
            let length ← msgbytes.get? 5
            let next_hop_mtu ← be_u16 msgbytes 6
            let ck ← be_u16 msgbytes 2
            let data ← sliceFrom8 msgbytes
            pure { icmpv4_type := .DestinationUnreachable code length next_hop_mtu,
                   icmpv4_checksum := ck, icmpv4_data := data })
    | 4 => finishV4 msgbytes .SourceQuench
    | 5 =>
      match msgbytes.get? 1 with
      | none => .panicked
      | some cb =>
        match parse_redirect_code cb with
        | .error e => .err e
        | .ok code => ofOption (do
            let address ← be_u32 msgbytes 4
            let ck ← be_u16 msgbytes 2
            let data ← sliceFrom8 msgbytes
            pure { icmpv4_type := .RedirectMessage code address,
                   icmpv4_checksum := ck, icmpv4_data := data })
    | 6 => finishV4 msgbytes .SourceQuench
    | 8 => ofOption (do
        let identifier ← be_u16 msgbytes 4
        let sequence_num ← be_u16 msgbytes 6
        let ck ← be_u16 msgbytes 2
        let data ← sliceFrom8 msgbytes
        pure { icmpv4_type := .EchoRequest identifier sequence_num,
               icmpv4_checksum := ck, icmpv4_data := data })
    | 9 => finishV4 msgbytes .RouterAdvertisement
    | 10 => finishV4 msgbytes .RouterSolicitation
    | 11 =>
      match msgbytes.get? 1 with
      | none => .panicked
      | some cb =>
        match cb with
        | 0 => finishV4 msgbytes (.TimeExceeded .ExpiredInTransit)
        | 1 => finishV4 msgbytes (.TimeExceeded .FragmentReassemblyTimeExceeded)
        | _ => .err .UnknownCode
    | 12 =>
      match msgbytes.get? 1 with
      | none => .panicked
      | some cb =>
        match cb with
        | 0 => finishV4 msgbytes (.BadIPHeader .PointerIndicatesError)
        | 1 => finishV4 msgbytes (.BadIPHeader .MissingRequiredOption)
        | 2 => finishV4 msgbytes (.BadIPHeader .BadLength)
        | _ => .err .UnknownCode
    | 13 => ofOption (do
        let identifier ← be_u16 msgbytes 4
        let sequence_num ← be_u16 msgbytes 6
        let ts_originate ← be_u32 msgbytes 8
        let ts_receive ← be_u32 msgbytes 12
        let ts_transmit ← be_u32 msgbytes 16
        let ck ← be_u16 msgbytes 2
        let data ← sliceFrom8 msgbytes
        pure { icmpv4_type := .Timestamp identifier sequence_num ts_originate ts_receive ts_transmit,
               icmpv4_checksum := ck, icmpv4_data := data })
    | 14 => ofOption (do
        let identifier ← be_u16 msgbytes 4
        let sequence_num ← be_u16 msgbytes 6
        let ts_originate ← be_u32 msgbytes 8
        let ts_receive ← be_u32 msgbytes 12
        let ts_transmit ← be_u32 msgbytes 16
        let ck ← be_u16 msgbytes 2
        let data ← sliceFrom8 msgbytes
        pure { icmpv4_type := .TimestampReply identifier sequence_num ts_originate ts_receive ts_transmit,
               icmpv4_checksum := ck, icmpv4_data := data })
    | _ => .err .UnknownType

/-- Rust `for b in &mut *header { total += *b as u32 }` (src/icmp.rs:310):
the running u32 byte sum, each addition reduced mod 2^32. -/
def sum_u32 (l : List Nat) : Nat :=
  l.foldl (fun t b => (t + b) % 4294967296) 0

/-- Rust `while total >= 0xffff { total += total >> 16 }`
(src/icmp.rs:313), with a fuel bound standing in for the unbounded
loop; `none` models a run that exhausts the fuel.  For every input in
the claims the byte sum is below 0xffff, so the loop body never runs
and the fuel is irrelevant. -/
def carryFold : Nat → Nat → Option Nat
  | fuel, t =>
    if t < 65535 then some t
    else
      match fuel with
      | 0 => none
      | fuel' + 1 => carryFold fuel' ((t + t / 65536) % 4294967296)

/-- Rust `populate_checksum` (src/icmp.rs:308): sum the bytes into a u32,
carry-fold, take `!total as u16`, and write its big-endian bytes into
positions 2 and 3.  `none` models either an exhausted loop bound or the
index panic of `header[2] = ...` / `header[3] = ...` on a slice shorter
than 4 bytes. -/
def populate_checksum (header : List Nat) : Option (List Nat) :=
  match carryFold 4294967296 (sum_u32 header) with
  | none => none
  | some total =>
    let c := (4294967295 - total) % 65536
    if 4 ≤ header.length then
      some ((header.set 2 (c / 256)).set 3 (c % 256))
    else none

/-- Rust `u16::to_be_bytes` on a value already reduced to u16 range. -/
def to_be_bytes_u16 (x : Nat) : List Nat :=
  [x % 65536 / 256, x % 256]

/-- Rust `construct_echo_request_v4` (src/icmp.rs:293): fixed 8-byte
header (type 8, code 0, zero checksum placeholder, big-endian id and
sequence number), checksum populated in place, then the extra data
appended. -/
def construct_echo_request_v4 (identifier sequence_num : Nat) (extdata : List Nat) :
    Option (List Nat) :=
  let be_id := to_be_bytes_u16 identifier
  let be_seq := to_be_bytes_u16 sequence_num
  let header := [8, 0, 0, 0, be_id.headD 0, be_id.getD 1 0, be_seq.headD 0, be_seq.getD 1 0]
  (populate_checksum header).map (fun h => h ++ extdata)

/-- Modelled from the spec's checksum description, for comparison with
the source's `populate_checksum`: the sum of the buffer interpreted as
unsigned 16-bit big-endian words. -/
def wordSum16 : List Nat → Nat
  | [] => 0
  | [a] => a * 256
  | a :: b :: rest => (a * 256 + b) + wordSum16 rest

/-- Modelled from the spec's checksum description: repeatedly fold any
carry past bit 16 back into the low 16 bits until the value fits in 16
bits. -/
def foldCarries (t : Nat) : Nat :=
  if t < 65536 then t
  else foldCarries (t % 65536 + t / 65536)
termination_by t
decreasing_by
  have hq : 1 ≤ t / 65536 := Nat.le_div_iff_mul_le (by omega) |>.mpr (by omega)
  omega

/-- Model of `std::io::ErrorKind` as far as the claims need it: an
opaque-but-decidable kind carried inside `StatusUpdate::Error` and
`HostInfo::last_error`. -/
inductive ErrorKind where
  | NotFound
  | TimedOut
  | ConnectionRefused
  | PermissionDenied
  | Other
  deriving DecidableEq, Repr

/-- Model of `std::net::SocketAddr`: the V4/V6 tag plus address and port
payloads (the payloads are opaque numbers; only the tag matters to the
code under verification). -/
inductive SocketAddr where
  | V4 (addr port : Nat)
  | V6 (addr port : Nat)
  deriving DecidableEq, Repr

/-- True exactly on `SocketAddr::V4`. -/
def isV4 : SocketAddr → Bool
  | .V4 _ _ => true
  | .V6 _ _ => false

/-- True exactly on `SocketAddr::V6`. -/
def isV6 : SocketAddr → Bool
  | .V4 _ _ => false
  | .V6 _ _ => true

/-- Rust struct `HostInfo` (src/lib.rs:14).  `pings_sent`/`successful`
are u32 and `sum_times` is u64 (kept below their bound by the `% 2^w` in
the updates); `sum_squared_times_ms` is an `f64` modelled over `ℚ`. -/
structure HostInfo where
  host_str : String
  host : SocketAddr
  pings_sent : Nat
  latest_time : Option Nat
  sum_times : Nat
  sum_squared_times_ms : ℚ
  min_time : Option Nat
  max_time : Option Nat
  successful : Nat
  last_error : Option ErrorKind
  deriving DecidableEq, Repr

/-- Rust `HostInfo::new` (src/lib.rs:30), with the external DNS
resolution `(host, 0).to_socket_addrs()` abstracted into the
`possible_hosts` argument (its iteration order is the list order).  The
loop keeps overwriting `chosen_host` with every non-V6 result and the
all-V6/empty case becomes `Err(ErrorKind::NotFound)`. -/
def HostInfo.new (host : String) (possible_hosts : List SocketAddr) :
    Except ErrorKind HostInfo :=
  let chosen_host := possible_hosts.foldl
    (fun acc h => match h with
      | .V6 _ _ => acc
      | .V4 a p => some (SocketAddr.V4 a p)) none
  match chosen_host with
  | none => .error .NotFound
  | some c =>
    .ok { host_str := host, host := c, pings_sent := 0, latest_time := none,
          sum_times := 0, sum_squared_times_ms := 0, min_time := none,
          max_time := none, successful := 0, last_error := none }

/-- The record built by the `Ok(HostInfo { .. })` arm of `HostInfo::new`
(src/lib.rs:46): all statistics zero / `None`. -/
def freshHost (host_str : String) (host : SocketAddr) : HostInfo :=
  { host_str := host_str, host := host, pings_sent := 0, latest_time := none,
    sum_times := 0, sum_squared_times_ms := 0, min_time := none,
    max_time := none, successful := 0, last_error := none }

/-- Rust `HostInfo::average` (src/lib.rs:60): `sum_times as f32 /
(successful as f32 * 1000f32)`, modelled over `ℚ` (exact at every value
the claims evaluate it on). -/
def HostInfo.average (h : HostInfo) : ℚ :=
  (h.sum_times : ℚ) / ((h.successful : ℚ) * 1000)

/-- Rust enum `StatusUpdate` (src/lib.rs:72). -/
inductive StatusUpdate where
  | Sent (i : Nat)
  | Received (i : Nat) (latency : Nat)
  | Error (i : Nat) (kind : ErrorKind)
  deriving DecidableEq, Repr

/-- The host index carried by a `StatusUpdate`. -/
def StatusUpdate.index : StatusUpdate → Nat
  | .Sent i => i
  | .Received i _ => i
  | .Error i _ => i

/-- The mutation `update_host_info` performs on the one entry
`hinfos[*i]` its event addresses (the bodies of the three match arms of
src/lib.rs:78). -/
def applyAt (u : StatusUpdate) (h : HostInfo) : HostInfo :=
  match u with
  | .Sent _ => { h with pings_sent := (h.pings_sent + 1) % 4294967296 }
  | .Received _ latency =>
    { h with
      last_error := none,
      successful := (h.successful + 1) % 4294967296,
      latest_time := some latency,
      sum_times := (h.sum_times + latency) % 18446744073709551616,
      sum_squared_times_ms :=
        h.sum_squared_times_ms + ((latency : ℚ) / 1000) * ((latency : ℚ) / 1000),
      min_time := match h.min_time with
        | some m => if latency < m then some latency else some m
        | none => some latency,
      max_time := match h.max_time with
        | some m => if m < latency then some latency else some m
        | none => some latency }
  | .Error _ k => { h with last_error := some k }

/-- Entry-`i` update of a table, leaving every other entry alone.  (The
Rust indexing `hinfos[*i]` panics when `i` is out of range; every claim
only exercises in-range indices, where this is the exact behaviour.) -/
def modifyAt {α : Type} : Nat → (α → α) → List α → List α
  | _, _, [] => []
  | 0, f, x :: xs => f x :: xs
  | i + 1, f, x :: xs => x :: modifyAt i f xs

/-- Rust `update_host_info` (src/lib.rs:78): each arm mutates only the
fields of `hinfos[*i]` shown in `applyAt`. -/
def update_host_info (update : StatusUpdate) (hinfos : List HostInfo) : List HostInfo :=
  modifyAt update.index (applyAt update) hinfos

/-- Folding a whole event sequence into one host's record with the
per-entry mutation of `update_host_info`. -/
def hostFold (l : List StatusUpdate) (h : HostInfo) : HostInfo :=
  l.foldl (fun h u => applyAt u h) h

/-- True on the events the sender task produces (`Sent`, `Error`). -/
def fromSender : StatusUpdate → Bool
  | .Received _ _ => false
  | _ => true

/-- True on the events the receiver task produces (`Received`). -/
def fromReceiver : StatusUpdate → Bool
  | .Received _ _ => true
  | _ => false

/-- Number of `Sent` events in a sequence. -/
def countSent (l : List StatusUpdate) : Nat :=
  l.countP fun u => match u with | .Sent _ => true | _ => false

/-- Number of `Received` events in a sequence. -/
def countReceived (l : List StatusUpdate) : Nat := l.countP fromReceiver

/-- The latencies of the `Received` events of a sequence, in order. -/
def latencies (l : List StatusUpdate) : List Nat :=
  l.filterMap fun u => match u with | .Received _ x => some x | _ => none

/-- `Interleave s r l`: `l` is a merge of `s` and `r` that preserves the
relative order inside each of `s` and `r` (the FIFO-per-producer channel
guarantee). -/
inductive Interleave : List StatusUpdate → List StatusUpdate → List StatusUpdate → Prop where
  | nil : Interleave [] [] []
  | left {u : StatusUpdate} {s r l : List StatusUpdate} :
      Interleave s r l → Interleave (u :: s) r (u :: l)
  | right {u : StatusUpdate} {s r l : List StatusUpdate} :
      Interleave s r l → Interleave s (u :: r) (u :: l)

/-- The `min_time ≤ latest_time ≤ max_time` invariant, read as in the
spec: it constrains only states where all three are set. -/
def LatestBounded (h : HostInfo) : Prop :=
  ∀ a b c, h.min_time = some a → h.latest_time = some b → h.max_time = some c →
    a ≤ b ∧ b ≤ c

/-- Folding `(· + ·) % M` over a list starting from a reduced seed is
the reduced plain sum. -/
theorem foldl_addmod (M : Nat) (l : List Nat) :
    ∀ t : Nat, l.foldl (fun acc b => (acc + b) % M) (t % M) = (t + l.sum) % M := by
  induction l with
  | nil => intro t; simp
  | cons b l ih =>
    intro t
    simp only [List.foldl_cons, Nat.mod_add_mod, List.sum_cons]
    rw [ih (t + b)]
    ring_nf

/-- The u32 byte sum is the plain byte sum reduced mod 2^32. -/
theorem sum_u32_eq (l : List Nat) : sum_u32 l = l.sum % 4294967296 := by
  have h := foldl_addmod 4294967296 l 0
  simpa [sum_u32] using h

/-- Below 0xffff the carry-fold loop body never runs. -/
theorem carryFold_of_lt {t : Nat} (h : t < 65535) (fuel : Nat) :
    carryFold fuel t = some t := by
  unfold carryFold
  simp [h]

/-- A byte list sums to at most 255 per element. -/
theorem sum_le_of_bytes (l : List Nat) (h : ∀ b ∈ l, b < 256) :
    l.sum ≤ 255 * l.length := by
  induction l with
  | nil => simp
  | cons b l ih =>
    have hb : b < 256 := h b (by simp)
    have hl : l.sum ≤ 255 * l.length := ih fun x hx => h x (by simp [hx])
    simp only [List.sum_cons, List.length_cons]
    omega

/-- Closed form of `populate_checksum` when the byte sum stays below the
loop bound and the header is long enough to take the two writes. -/
theorem populate_checksum_eq (header : List Nat) (h4 : 4 ≤ header.length)
    (hsum : header.sum < 65535) :
    populate_checksum header =
      some ((header.set 2 ((65535 - header.sum) / 256)).set 3 ((65535 - header.sum) % 256)) := by
  unfold populate_checksum
  rw [sum_u32_eq, Nat.mod_eq_of_lt (by omega), carryFold_of_lt hsum]
  have hc : (4294967295 - header.sum) % 65536 = 65535 - header.sum := by omega
  simp only [hc, h4, if_pos]

deriving instance DecidableEq for Except

/-- C1: the checksum the encoder writes for the fixed header
`[8,0,0,0,0xBE,0xEF,0x00,0x01]` is 0xFE49 (the complement of the plain
byte sum), and substituting it into bytes 2-3 makes the spec's
one's-complement 16-bit-word sum over the 8 bytes fold to 0xC53A, not
0xFFFF: the code sums individual bytes where the claim (and the ICMP
standard it cites) sums big-endian 16-bit words. -/
theorem c1_code_checksum_fails_word_sum :
    construct_echo_request_v4 48879 1 [] = some [8, 0, 254, 73, 190, 239, 0, 1] ∧
    foldCarries (wordSum16 [8, 0, 254, 73, 190, 239, 0, 1]) = 50490 ∧
    (50490 : Nat) ≠ 65535 := by
  refine ⟨by decide, ?_, by decide⟩
  have hw : wordSum16 [8, 0, 254, 73, 190, 239, 0, 1] = 116025 := by decide
  rw [hw, foldCarries.eq_def]
  norm_num
  rw [foldCarries.eq_def]
  norm_num

/-- C2: decoding the 4-byte buffer `[8,0,0,0]` (type byte 8) and the
empty buffer aborts with an out-of-bounds panic instead of returning the
`NotLongEnough` error the claim requires: `try_from` never bound-checks
before indexing. -/
theorem c2_short_buffer_panics :
    tryFromV4 [8, 0, 0, 0] = .panicked ∧ tryFromV4 [] = .panicked := by
  decide

/-- C3: a sufficiently long buffer with type byte 6 decodes successfully
as `SourceQuench` (a copy-paste of the type-4 arm) instead of producing
the `UnknownType` error the claim requires; the remaining parts of the
claim (truly unknown types, out-of-range codes for types 3, 5 and 11)
behave as claimed. -/
theorem c3_type6_decoded_not_rejected :
    tryFromV4 [6, 0, 0, 0, 0, 0, 0, 0] =
      .ok { icmpv4_type := .SourceQuench, icmpv4_checksum := 0, icmpv4_data := [] } ∧
    tryFromV4 [250, 0, 0, 0, 0, 0, 0, 0] = .err .UnknownType ∧
    tryFromV4 [3, 99, 0, 0, 0, 0, 0, 0] = .err .UnknownCode ∧
    tryFromV4 [5, 4, 0, 0, 0, 0, 0, 0] = .err .UnknownCode ∧
    tryFromV4 [11, 2, 0, 0, 0, 0, 0, 0] = .err .UnknownCode := by
  decide

/-- C4 counterexample: the fresh state satisfies `successful ≤
pings_sent`, yet one `Received` event produces `successful = 1 >
pings_sent = 0` — a single event applied to a satisfying state breaks
the invariant, refuting the claim. -/
theorem c4_counterexample :
    (freshHost "h" (.V4 0 0)).successful ≤ (freshHost "h" (.V4 0 0)).pings_sent ∧
    (applyAt (.Received 0 5000) (freshHost "h" (.V4 0 0))).pings_sent <
      (applyAt (.Received 0 5000) (freshHost "h" (.V4 0 0))).successful := by
  decide

/-- C5 counterexample: the two order-preserving interleavings of the
sender event `Error(0, TimedOut)` with the receiver event
`Received(0, 100)` end with different `last_error` values, so the final
`HostInfo` is not independent of the interleaving. -/
theorem c5_counterexample :
    Interleave [.Error 0 .TimedOut] [.Received 0 100]
      [.Error 0 .TimedOut, .Received 0 100] ∧
    Interleave [.Error 0 .TimedOut] [.Received 0 100]
      [.Received 0 100, .Error 0 .TimedOut] ∧
    [StatusUpdate.Error 0 .TimedOut].all fromSender = true ∧
    [StatusUpdate.Received 0 100].all fromReceiver = true ∧
    (hostFold [.Error 0 .TimedOut, .Received 0 100] (freshHost "h" (.V4 0 0))).last_error ≠
      (hostFold [.Received 0 100, .Error 0 .TimedOut] (freshHost "h" (.V4 0 0))).last_error :=
  ⟨.left (.right .nil), .right (.left .nil), by decide, by decide, by decide⟩

/-- C7: applying `Sent(0)`, `Received(0, 5000)`, `Received(0, 15000)` to
a table whose entry 0 is fresh yields exactly `pings_sent = 1`,
`successful = 2`, `min = 5000`, `max = 15000`, `latest = 15000` and an
average of 10 milliseconds. -/
theorem c7_fixed_sequence :
    ((update_host_info (.Received 0 15000)
        (update_host_info (.Received 0 5000)
          (update_host_info (.Sent 0) [freshHost "example.com" (.V4 1 0)]))).headD
        (freshHost "" (.V4 0 0))).pings_sent = 1 ∧
    ((update_host_info (.Received 0 15000)
        (update_host_info (.Received 0 5000)
          (update_host_info (.Sent 0) [freshHost "example.com" (.V4 1 0)]))).headD
        (freshHost "" (.V4 0 0))).successful = 2 ∧
    ((update_host_info (.Received 0 15000)
        (update_host_info (.Received 0 5000)
          (update_host_info (.Sent 0) [freshHost "example.com" (.V4 1 0)]))).headD
        (freshHost "" (.V4 0 0))).min_time = some 5000 ∧
    ((update_host_info (.Received 0 15000)
        (update_host_info (.Received 0 5000)
          (update_host_info (.Sent 0) [freshHost "example.com" (.V4 1 0)]))).headD
        (freshHost "" (.V4 0 0))).max_time = some 15000 ∧
    ((update_host_info (.Received 0 15000)
        (update_host_info (.Received 0 5000)
          (update_host_info (.Sent 0) [freshHost "example.com" (.V4 1 0)]))).headD
        (freshHost "" (.V4 0 0))).latest_time = some 15000 ∧
    ((update_host_info (.Received 0 15000)
        (update_host_info (.Received 0 5000)
          (update_host_info (.Sent 0) [freshHost "example.com" (.V4 1 0)]))).headD
        (freshHost "" (.V4 0 0))).average = 10 := by
  refine ⟨by decide, by decide, by decide, by decide, by decide, ?_⟩
  have h1 : ((update_host_info (.Received 0 15000)
      (update_host_info (.Received 0 5000)
        (update_host_info (.Sent 0) [freshHost "example.com" (.V4 1 0)]))).headD
      (freshHost "" (.V4 0 0))).sum_times = 20000 := by decide
  have h2 : ((update_host_info (.Received 0 15000)
      (update_host_info (.Received 0 5000)
        (update_host_info (.Sent 0) [freshHost "example.com" (.V4 1 0)]))).headD
      (freshHost "" (.V4 0 0))).successful = 2 := by decide
  unfold HostInfo.average
  rw [h1, h2]
  norm_num

/-- C10 counterexample: `[0, 0]` is a slice of length at most 8, yet
`populate_checksum` panics on the write `header[2] = ...` instead of
writing the complement of the byte sum into bytes 2 and 3. -/
theorem c10_counterexample :
    populate_checksum [0, 0] = none ∧ [0, 0].length ≤ 8 := by
  decide

theorem hostFold_cons (u : StatusUpdate) (l : List StatusUpdate) (h : HostInfo) :
    hostFold (u :: l) h = hostFold l (applyAt u h) := rfl

/-- The length of the extracted latency list counts the `Received` events. -/
theorem latencies_length (l : List StatusUpdate) :
    (latencies l).length = countReceived l := by
  induction l with
  | nil => rfl
  | cons u l ih =>
    simp only [latencies, countReceived] at ih ⊢
    cases u <;> simp [List.filterMap_cons, List.countP_cons, fromReceiver, ih]

/-- After a fold, `pings_sent` is the start value plus the number of
`Sent` events, reduced mod 2^32. -/
theorem hostFold_pings_sent (l : List StatusUpdate) :
    ∀ h : HostInfo, h.pings_sent < 4294967296 →
      (hostFold l h).pings_sent = (h.pings_sent + countSent l) % 4294967296 := by
  induction l with
  | nil => intro h hh; simp [hostFold, countSent, Nat.mod_eq_of_lt hh]
  | cons u l ih =>
    intro h hh
    rw [hostFold_cons]
    cases u with
    | Sent i =>
      rw [ih _ (Nat.mod_lt _ (by norm_num))]
      simp only [applyAt, countSent, List.countP_cons, Nat.mod_add_mod]
      norm_num
      ring_nf
    | Received i lat =>
      rw [ih _ (by simpa [applyAt] using hh)]
      simp [applyAt, countSent, List.countP_cons]
    | Error i k =>
      rw [ih _ (by simpa [applyAt] using hh)]
      simp [applyAt, countSent, List.countP_cons]

/-- After a fold, `successful` is the start value plus the number of
`Received` events, reduced mod 2^32. -/
theorem hostFold_successful (l : List StatusUpdate) :
    ∀ h : HostInfo, h.successful < 4294967296 →
      (hostFold l h).successful = (h.successful + (latencies l).length) % 4294967296 := by
  induction l with
  | nil => intro h hh; simp [hostFold, latencies, Nat.mod_eq_of_lt hh]
  | cons u l ih =>
    intro h hh
    rw [hostFold_cons]
    cases u with
    | Sent i =>
      rw [ih _ (by simpa [applyAt] using hh)]
      simp [applyAt, latencies, List.filterMap_cons]
    | Received i lat =>
      rw [ih _ (Nat.mod_lt _ (by norm_num))]
      simp only [applyAt, latencies, List.filterMap_cons, List.length_cons, Nat.mod_add_mod]
      ring_nf
    | Error i k =>
      rw [ih _ (by simpa [applyAt] using hh)]
      simp [applyAt, latencies, List.filterMap_cons]

/-- After a fold, `sum_times` is the start value plus the sum of the
received latencies, reduced mod 2^64. -/
theorem hostFold_sum_times (l : List StatusUpdate) :
    ∀ h : HostInfo, h.sum_times < 18446744073709551616 →
      (hostFold l h).sum_times = (h.sum_times + (latencies l).sum) % 18446744073709551616 := by
  induction l with
  | nil => intro h hh; simp [hostFold, latencies, Nat.mod_eq_of_lt hh]
  | cons u l ih =>
    intro h hh
    rw [hostFold_cons]
    cases u with
    | Sent i =>
      rw [ih _ (by simpa [applyAt] using hh)]
      simp [applyAt, latencies, List.filterMap_cons]
    | Received i lat =>
      rw [ih _ (Nat.mod_lt _ (by norm_num))]
      simp only [applyAt, latencies, List.filterMap_cons, List.sum_cons, Nat.mod_add_mod]
      ring_nf
    | Error i k =>
      rw [ih _ (by simpa [applyAt] using hh)]
      simp [applyAt, latencies, List.filterMap_cons]

/-- Sum of the squared latencies in milliseconds, over `ℚ`. -/
def sumSq (latlist : List Nat) : ℚ :=
  (latlist.map fun x => ((x : ℚ) / 1000) * ((x : ℚ) / 1000)).sum

/-- After a fold, `sum_squared_times_ms` is the start value plus the sum
of squared received latencies (in ms). -/
theorem hostFold_sumsq (l : List StatusUpdate) :
    ∀ h : HostInfo,
      (hostFold l h).sum_squared_times_ms = h.sum_squared_times_ms + sumSq (latencies l) := by
  induction l with
  | nil => intro h; simp [hostFold, latencies, sumSq]
  | cons u l ih =>
    intro h
    rw [hostFold_cons, ih]
    cases u <;> simp [applyAt, latencies, List.filterMap_cons, sumSq] <;> ring

/-- After a fold, `latest_time` is the last received latency, or the
start value when no event was received. -/
theorem hostFold_latest (l : List StatusUpdate) :
    ∀ h : HostInfo,
      (hostFold l h).latest_time = (latencies l).foldl (fun _ x => some x) h.latest_time := by
  induction l with
  | nil => intro h; simp [hostFold, latencies]
  | cons u l ih =>
    intro h
    rw [hostFold_cons, ih]
    cases u <;> simp [applyAt, latencies, List.filterMap_cons]

/-- One step of the running-minimum update of src/lib.rs:90. -/
def minStep (m : Option Nat) (x : Nat) : Option Nat :=
  match m with
  | some m' => if x < m' then some x else some m'
  | none => some x

/-- One step of the running-maximum update of src/lib.rs:98. -/
def maxStep (m : Option Nat) (x : Nat) : Option Nat :=
  match m with
  | some m' => if m' < x then some x else some m'
  | none => some x

/-- After a fold, `min_time` is the running minimum of the received
latencies over the start value. -/
theorem hostFold_min (l : List StatusUpdate) :
    ∀ h : HostInfo, (hostFold l h).min_time = (latencies l).foldl minStep h.min_time := by
  induction l with
  | nil => intro h; simp [hostFold, latencies]
  | cons u l ih =>
    intro h
    rw [hostFold_cons, ih]
    cases u <;> simp [applyAt, latencies, List.filterMap_cons, minStep]

/-- After a fold, `max_time` is the running maximum of the received
latencies over the start value. -/
theorem hostFold_max (l : List StatusUpdate) :
    ∀ h : HostInfo, (hostFold l h).max_time = (latencies l).foldl maxStep h.max_time := by
  induction l with
  | nil => intro h; simp [hostFold, latencies]
  | cons u l ih =>
    intro h
    rw [hostFold_cons, ih]
    cases u <;> simp [applyAt, latencies, List.filterMap_cons, maxStep]

/-- An interleaving with a sender-only left component has exactly the
receiver component's latencies, in the receiver's order. -/
theorem interleave_latencies {s r l : List StatusUpdate}
    (hil : Interleave s r l) (hs : s.all fromSender = true) :
    latencies l = latencies r := by
  induction hil with
  | nil => rfl
  | left h ih =>
    rename_i u s' r' l'
    simp only [List.all_cons, Bool.and_eq_true] at hs
    have h2 := ih hs.2
    cases u with
    | Received i x => simp [fromSender] at hs
    | Sent i => simpa [latencies, List.filterMap_cons] using h2
    | Error i k => simpa [latencies, List.filterMap_cons] using h2
  | right h ih =>
    rename_i u s' r' l'
    have h2 := ih hs
    simp only [latencies, List.filterMap_cons] at h2 ⊢
    cases u <;> simp [h2]

/-- The number of `Sent` events in an interleaving is the sum over the
two components. -/
theorem interleave_countSent {s r l : List StatusUpdate} (hil : Interleave s r l) :
    countSent l = countSent s + countSent r := by
  induction hil with
  | nil => rfl
  | left h ih =>
    rename_i u s' r' l'
    simp only [countSent, List.countP_cons] at ih ⊢
    omega
  | right h ih =>
    rename_i u s' r' l'
    simp only [countSent, List.countP_cons] at ih ⊢
    omega

/-- C4 (amended): `successful ≤ pings_sent` does hold for every host
state reached from the fresh state by a per-host event sequence in which
the `Received` events never outnumber the `Sent` events (and the `Sent`
count stays below the u32 bound); a `Received` event alone increments
`successful` without touching `pings_sent`. -/
theorem c4_amended (l : List StatusUpdate) (s : String) (a : SocketAddr)
    (hcnt : countReceived l ≤ countSent l) (hlt : countSent l < 4294967296) :
    (hostFold l (freshHost s a)).successful ≤ (hostFold l (freshHost s a)).pings_sent := by
  rw [hostFold_pings_sent l _ (by simp [freshHost])]
  rw [hostFold_successful l _ (by simp [freshHost])]
  rw [latencies_length]
  simp only [freshHost, Nat.zero_add]
  rw [Nat.mod_eq_of_lt (by omega), Nat.mod_eq_of_lt (by omega)]
  exact hcnt

/-- Witness for the amended C4 at a concrete sequence. -/
theorem c4_amended_witness :
    (hostFold [.Sent 0, .Received 0 7] (freshHost "h" (.V4 0 0))).successful ≤
      (hostFold [.Sent 0, .Received 0 7] (freshHost "h" (.V4 0 0))).pings_sent :=
  c4_amended [.Sent 0, .Received 0 7] "h" (.V4 0 0) (by decide) (by decide)

/-- C5 (amended): folding any two order-preserving interleavings of a
sender-produced sequence (`Sent`/`Error` events) with a
receiver-produced sequence (`Received` events) into the same host record
yields the same final `pings_sent`, `successful`, `latest_time`,
`sum_times`, `sum_squared_times_ms`, `min_time` and `max_time`; only
`last_error` can depend on the interleaving. -/
theorem c5_amended (s r l1 l2 : List StatusUpdate) (h : HostInfo)
    (hs : s.all fromSender = true) (hr : r.all fromReceiver = true)
    (hil1 : Interleave s r l1) (hil2 : Interleave s r l2)
    (hp : h.pings_sent < 4294967296) (hc : h.successful < 4294967296)
    (ht : h.sum_times < 18446744073709551616) :
    (hostFold l1 h).pings_sent = (hostFold l2 h).pings_sent ∧
    (hostFold l1 h).successful = (hostFold l2 h).successful ∧
    (hostFold l1 h).latest_time = (hostFold l2 h).latest_time ∧
    (hostFold l1 h).sum_times = (hostFold l2 h).sum_times ∧
    (hostFold l1 h).sum_squared_times_ms = (hostFold l2 h).sum_squared_times_ms ∧
    (hostFold l1 h).min_time = (hostFold l2 h).min_time ∧
    (hostFold l1 h).max_time = (hostFold l2 h).max_time := by
  have hl1 : latencies l1 = latencies r := interleave_latencies hil1 hs
  have hl2 : latencies l2 = latencies r := interleave_latencies hil2 hs
  have hc1 : countSent l1 = countSent s + countSent r := interleave_countSent hil1
  have hc2 : countSent l2 = countSent s + countSent r := interleave_countSent hil2
  refine ⟨?_, ?_, ?_, ?_, ?_, ?_, ?_⟩
  · rw [hostFold_pings_sent l1 h hp, hostFold_pings_sent l2 h hp, hc1, hc2]
  · rw [hostFold_successful l1 h hc, hostFold_successful l2 h hc, hl1, hl2]
  · rw [hostFold_latest l1 h, hostFold_latest l2 h, hl1, hl2]
  · rw [hostFold_sum_times l1 h ht, hostFold_sum_times l2 h ht, hl1, hl2]
  · rw [hostFold_sumsq l1 h, hostFold_sumsq l2 h, hl1, hl2]
  · rw [hostFold_min l1 h, hostFold_min l2 h, hl1, hl2]
  · rw [hostFold_max l1 h, hostFold_max l2 h, hl1, hl2]

/-- Witness for the amended C5 at the two interleavings of one `Sent`
with one `Received`. -/
theorem c5_amended_witness :
    (hostFold [.Sent 0, .Received 0 5] (freshHost "h" (.V4 0 0))).pings_sent =
      (hostFold [.Received 0 5, .Sent 0] (freshHost "h" (.V4 0 0))).pings_sent ∧
    (hostFold [.Sent 0, .Received 0 5] (freshHost "h" (.V4 0 0))).successful =
      (hostFold [.Received 0 5, .Sent 0] (freshHost "h" (.V4 0 0))).successful ∧
    (hostFold [.Sent 0, .Received 0 5] (freshHost "h" (.V4 0 0))).latest_time =
      (hostFold [.Received 0 5, .Sent 0] (freshHost "h" (.V4 0 0))).latest_time ∧
    (hostFold [.Sent 0, .Received 0 5] (freshHost "h" (.V4 0 0))).sum_times =
      (hostFold [.Received 0 5, .Sent 0] (freshHost "h" (.V4 0 0))).sum_times ∧
    (hostFold [.Sent 0, .Received 0 5] (freshHost "h" (.V4 0 0))).sum_squared_times_ms =
      (hostFold [.Received 0 5, .Sent 0] (freshHost "h" (.V4 0 0))).sum_squared_times_ms ∧
    (hostFold [.Sent 0, .Received 0 5] (freshHost "h" (.V4 0 0))).min_time =
      (hostFold [.Received 0 5, .Sent 0] (freshHost "h" (.V4 0 0))).min_time ∧
    (hostFold [.Sent 0, .Received 0 5] (freshHost "h" (.V4 0 0))).max_time =
      (hostFold [.Received 0 5, .Sent 0] (freshHost "h" (.V4 0 0))).max_time :=
  c5_amended [.Sent 0] [.Received 0 5] [.Sent 0, .Received 0 5] [.Received 0 5, .Sent 0]
    (freshHost "h" (.V4 0 0)) (by decide) (by decide)
    (.left (.right .nil)) (.right (.left .nil))
    (by decide) (by decide) (by decide)

/-- One `update_host_info` arm keeps `min_time ≤ latest_time ≤ max_time`:
`Sent`/`Error` leave the three fields unchanged, and `Received`
re-establishes the bounds around the stored latency. -/
theorem latestBounded_applyAt (u : StatusUpdate) (h : HostInfo)
    (hh : LatestBounded h) : LatestBounded (applyAt u h) := by
  cases u with
  | Sent i =>
    intro a b c h1 h2 h3
    simp only [applyAt] at h1 h2 h3
    exact hh a b c h1 h2 h3
  | Error i k =>
    intro a b c h1 h2 h3
    simp only [applyAt] at h1 h2 h3
    exact hh a b c h1 h2 h3
  | Received i lat =>
    intro a b c h1 h2 h3
    simp only [applyAt] at h1 h2 h3
    cases hm : h.min_time <;> cases hx : h.max_time <;>
      simp only [hm, hx, Option.some.injEq] at h1 h2 h3
    · omega
    · split at h3 <;> simp only [Option.some.injEq] at h3 <;> omega
    · split at h1 <;> simp only [Option.some.injEq] at h1 <;> omega
    · split at h1 <;> split at h3 <;> simp only [Option.some.injEq] at h1 h3 <;> omega

/-- Folding any event sequence keeps `min_time ≤ latest_time ≤ max_time`. -/
theorem latestBounded_hostFold (l : List StatusUpdate) :
    ∀ h : HostInfo, LatestBounded h → LatestBounded (hostFold l h) := by
  induction l with
  | nil => intro h hh; exact hh
  | cons u l ih =>
    intro h hh
    rw [hostFold_cons]
    exact ih _ (latestBounded_applyAt u h hh)

/-- The fresh record satisfies the bound invariant vacuously. -/
theorem latestBounded_fresh (s : String) (a : SocketAddr) :
    LatestBounded (freshHost s a) := by
  intro x b c h1 h2 h3
  simp [freshHost] at h1

/-- C8: `min_time ≤ latest_time ≤ max_time` (whenever all three are set)
is preserved by every single `update_host_info` arm and holds in every
state reachable from a fresh record; moreover `Sent` and `Error` leave
the three fields untouched, the first received latency becomes both
bounds, and a later `Received(i, lat)` replaces `min_time` exactly on
`lat < min` and `max_time` exactly on `max < lat`. -/
theorem c8_min_latest_max :
    (∀ (u : StatusUpdate) (h : HostInfo), LatestBounded h → LatestBounded (applyAt u h)) ∧
    (∀ (l : List StatusUpdate) (s : String) (a : SocketAddr),
      LatestBounded (hostFold l (freshHost s a))) ∧
    (∀ (i : Nat) (h : HostInfo),
      (applyAt (.Sent i) h).min_time = h.min_time ∧
      (applyAt (.Sent i) h).latest_time = h.latest_time ∧
      (applyAt (.Sent i) h).max_time = h.max_time) ∧
    (∀ (i : Nat) (k : ErrorKind) (h : HostInfo),
      (applyAt (.Error i k) h).min_time = h.min_time ∧
      (applyAt (.Error i k) h).latest_time = h.latest_time ∧
      (applyAt (.Error i k) h).max_time = h.max_time) ∧
    (∀ (i lat : Nat) (h : HostInfo), h.min_time = none → h.max_time = none →
      (applyAt (.Received i lat) h).min_time = some lat ∧
      (applyAt (.Received i lat) h).latest_time = some lat ∧
      (applyAt (.Received i lat) h).max_time = some lat) ∧
    (∀ (i lat m : Nat) (h : HostInfo), h.min_time = some m →
      (applyAt (.Received i lat) h).min_time = if lat < m then some lat else some m) ∧
    (∀ (i lat m : Nat) (h : HostInfo), h.max_time = some m →
      (applyAt (.Received i lat) h).max_time = if m < lat then some lat else some m) := by
  refine ⟨latestBounded_applyAt, ?_, ?_, ?_, ?_, ?_, ?_⟩
  · intro l s a
    exact latestBounded_hostFold l _ (latestBounded_fresh s a)
  · intro i h
    simp [applyAt]
  · intro i k h
    simp [applyAt]
  · intro i lat h hm hx
    simp [applyAt, hm, hx]
  · intro i lat m h hm
    simp [applyAt, hm]
  · intro i lat m h hm
    simp [applyAt, hm]

/-- Witness for C8 at concrete events and records. -/
theorem c8_witness :
    LatestBounded (applyAt (.Received 0 5) (freshHost "h" (.V4 0 0))) ∧
    LatestBounded (hostFold [.Sent 0, .Received 0 5, .Received 0 9] (freshHost "h" (.V4 0 0))) ∧
    (applyAt (.Sent 1) (freshHost "h" (.V4 0 0))).min_time = (freshHost "h" (.V4 0 0)).min_time :=
  ⟨c8_min_latest_max.1 (.Received 0 5) (freshHost "h" (.V4 0 0)) (latestBounded_fresh "h" (.V4 0 0)),
   c8_min_latest_max.2.1 [.Sent 0, .Received 0 5, .Received 0 9] "h" (.V4 0 0),
   (c8_min_latest_max.2.2.1 1 (freshHost "h" (.V4 0 0))).1⟩

theorem some_or_eq {α : Type} (a : α) (o : Option α) : (some a).or o = some a := rfl

/-- The spec-side reading of the `HostInfo::new` loop result: the last
IPv4 address in iteration order. -/
def lastV4 (l : List SocketAddr) : Option SocketAddr := (l.filter isV4).getLast?

theorem getLast?_cons_or {α : Type} (xs : List α) :
    ∀ x : α, (x :: xs).getLast? = (xs.getLast?).or (some x) := by
  induction xs with
  | nil => intro x; rfl
  | cons y ys ih =>
    intro x
    rw [List.getLast?_cons_cons, ih y, Option.or_assoc, some_or_eq]

/-- The `chosen_host` loop of `HostInfo::new` computes the last V4 entry
(falling back to the accumulator). -/
theorem chooseHost_foldl (l : List SocketAddr) :
    ∀ acc : Option SocketAddr,
      l.foldl (fun acc h => match h with
        | .V6 _ _ => acc
        | .V4 a p => some (SocketAddr.V4 a p)) acc = (lastV4 l).or acc := by
  induction l with
  | nil => intro acc; simp [lastV4]
  | cons x xs ih =>
    intro acc
    cases x with
    | V6 a p =>
      simp only [List.foldl_cons]
      rw [ih acc]
      simp [lastV4, isV4, List.filter_cons]
    | V4 a p =>
      simp only [List.foldl_cons]
      rw [ih (some (SocketAddr.V4 a p))]
      simp only [lastV4, isV4, List.filter_cons, if_pos]
      rw [getLast?_cons_or, Option.or_assoc, some_or_eq]

/-- A last-V4 result is indeed a V4 address. -/
theorem lastV4_isV4 {l : List SocketAddr} {c : SocketAddr} (hc : lastV4 l = some c) :
    ∃ a p, c = .V4 a p := by
  have hmem : c ∈ (l.filter isV4).getLast? := by
    rw [Option.mem_def]; exact hc
  obtain ⟨hne, rfl⟩ := List.mem_getLast?_eq_getLast hmem
  have h1 := List.getLast_mem hne
  have h2 := List.of_mem_filter h1
  cases hco : (l.filter isV4).getLast hne with
  | V4 a p => exact ⟨a, p, rfl⟩
  | V6 a p => rw [hco] at h2; simp [isV4] at h2

/-- C9: a successful `HostInfo::new` always carries an IPv4 address —
the last V4 resolution result in iteration order — with every statistic
zero/`None`, and a host whose resolutions are all IPv6 yields
`Err(NotFound)` instead of a record. -/
theorem c9_new_skips_ipv6 :
    (∀ (host : String) (l : List SocketAddr) (h : HostInfo),
      HostInfo.new host l = .ok h →
      (∃ a p, h.host = .V4 a p) ∧
      lastV4 l = some h.host ∧
      h.host_str = host ∧ h.pings_sent = 0 ∧ h.successful = 0 ∧
      h.latest_time = none ∧ h.sum_times = 0 ∧ h.sum_squared_times_ms = 0 ∧
      h.min_time = none ∧ h.max_time = none ∧ h.last_error = none) ∧
    (∀ (host : String) (l : List SocketAddr),
      (∀ x ∈ l, isV6 x = true) → HostInfo.new host l = .error .NotFound) := by
  constructor
  · intro host l h hok
    unfold HostInfo.new at hok
    rw [chooseHost_foldl l none, Option.or_none] at hok
    cases hval : lastV4 l with
    | none => rw [hval] at hok; simp at hok
    | some c =>
      rw [hval] at hok
      simp only [Except.ok.injEq] at hok
      obtain ⟨a, p, hc⟩ := lastV4_isV4 hval
      subst hok
      exact ⟨⟨a, p, hc⟩, rfl, rfl, rfl, rfl, rfl, rfl, rfl, rfl, rfl, rfl⟩
  · intro host l hall
    unfold HostInfo.new
    rw [chooseHost_foldl l none, Option.or_none]
    have hnil : l.filter isV4 = [] := by
      rw [List.filter_eq_nil_iff]
      intro x hx
      have := hall x hx
      cases x with
      | V4 a p => simp [isV6] at this
      | V6 a p => simp [isV4]
    have : lastV4 l = none := by simp [lastV4, hnil]
    rw [this]

/-- Witness for C9 on a concrete mixed resolution list and a concrete
all-IPv6 list. -/
theorem c9_witness :
    ((∃ a p, (freshHost "h" (.V4 9 1)).host = SocketAddr.V4 a p) ∧
      lastV4 [.V6 1 0, .V4 7 0, .V6 2 0, .V4 9 1] = some (freshHost "h" (.V4 9 1)).host ∧
      (freshHost "h" (.V4 9 1)).host_str = "h" ∧ (freshHost "h" (.V4 9 1)).pings_sent = 0 ∧
      (freshHost "h" (.V4 9 1)).successful = 0 ∧ (freshHost "h" (.V4 9 1)).latest_time = none ∧
      (freshHost "h" (.V4 9 1)).sum_times = 0 ∧
      (freshHost "h" (.V4 9 1)).sum_squared_times_ms = 0 ∧
      (freshHost "h" (.V4 9 1)).min_time = none ∧ (freshHost "h" (.V4 9 1)).max_time = none ∧
      (freshHost "h" (.V4 9 1)).last_error = none) ∧
    HostInfo.new "h" [.V6 1 0, .V6 3 2] = .error .NotFound :=
  ⟨c9_new_skips_ipv6.1 "h" [.V6 1 0, .V4 7 0, .V6 2 0, .V4 9 1] (freshHost "h" (.V4 9 1))
      (by decide),
   c9_new_skips_ipv6.2 "h" [.V6 1 0, .V6 3 2] (by decide)⟩

/-- C10 (amended): on every slice of length 4 to 8 (whose entries are
bytes), `populate_checksum` terminates without ever entering the
carry-fold loop, writes the big-endian complement of the byte sum into
bytes 2 and 3, and leaves every other byte unchanged; slices shorter
than 4 instead panic on the write to byte 2. -/
theorem c10_amended (header : List Nat) (h4 : 4 ≤ header.length)
    (h8 : header.length ≤ 8) (hb : ∀ b ∈ header, b < 256) :
    ∃ out, populate_checksum header = some out ∧
      out.get? 2 = some ((65535 - header.sum) / 256) ∧
      out.get? 3 = some ((65535 - header.sum) % 256) ∧
      (∀ i, i ≠ 2 → i ≠ 3 → out.get? i = header.get? i) ∧
      out.length = header.length := by
  have hsum : header.sum < 65535 := by
    have := sum_le_of_bytes header hb
    omega
  refine ⟨_, populate_checksum_eq header h4 hsum, ?_, ?_, ?_, ?_⟩
  · rw [List.get?_set_ne _ _ (by omega)]
    exact List.get?_set_eq_of_lt _ (by omega)
  · exact List.get?_set_eq_of_lt _ (by simp only [List.length_set]; omega)
  · intro i h2 h3
    rw [List.get?_set_ne _ _ (by omega), List.get?_set_ne _ _ (by omega)]
  · simp

/-- Witness for the amended C10 at the encoder's fixed echo-request
header. -/
theorem c10_amended_witness :
    ∃ out, populate_checksum [8, 0, 0, 0, 190, 239, 0, 1] = some out ∧
      out.get? 2 = some ((65535 - [8, 0, 0, 0, 190, 239, 0, 1].sum) / 256) ∧
      out.get? 3 = some ((65535 - [8, 0, 0, 0, 190, 239, 0, 1].sum) % 256) ∧
      (∀ i, i ≠ 2 → i ≠ 3 → out.get? i = [8, 0, 0, 0, 190, 239, 0, 1].get? i) ∧
      out.length = [8, 0, 0, 0, 190, 239, 0, 1].length :=
  c10_amended [8, 0, 0, 0, 190, 239, 0, 1] (by decide) (by decide) (by decide)

/-- Decoding any buffer of the echo-request shape (type 8, code 0, any
checksum bytes, any id/sequence bytes, any tail) succeeds with the
big-endian field values and the verbatim tail. -/
theorem tryFromV4_echo_shape (c0 c1 e4 e5 e6 e7 : Nat) (ext : List Nat) :
    tryFromV4 (8 :: 0 :: c0 :: c1 :: e4 :: e5 :: e6 :: e7 :: ext) =
      .ok ⟨.EchoRequest (e4 * 256 + e5) (e6 * 256 + e7), c0 * 256 + c1, ext⟩ := by
  have hslice : sliceFrom8 (8 :: 0 :: c0 :: c1 :: e4 :: e5 :: e6 :: e7 :: ext) = some ext := by
    simp [sliceFrom8]
  rw [show tryFromV4 (8 :: 0 :: c0 :: c1 :: e4 :: e5 :: e6 :: e7 :: ext) =
      ofOption ((sliceFrom8 (8 :: 0 :: c0 :: c1 :: e4 :: e5 :: e6 :: e7 :: ext)).bind
        (fun data => some ⟨.EchoRequest (e4 * 256 + e5) (e6 * 256 + e7), c0 * 256 + c1, data⟩))
      from rfl,
    hslice]
  rfl

/-- C6: for every u16 identifier and sequence number and arbitrary extra
payload, decoding the encoder's output succeeds and returns an
`EchoRequest` with the same identifier and sequence number and the extra
payload verbatim. -/
theorem c6_echo_roundtrip (identifier sequence_num : Nat) (extdata : List Nat)
    (hid : identifier < 65536) (hseq : sequence_num < 65536) :
    ∃ bytes m, construct_echo_request_v4 identifier sequence_num extdata = some bytes ∧
      tryFromV4 bytes = .ok m ∧
      m.icmpv4_type = .EchoRequest identifier sequence_num ∧
      m.icmpv4_data = extdata := by
  have hsum : ([8, 0, 0, 0, identifier % 65536 / 256, identifier % 256,
      sequence_num % 65536 / 256, sequence_num % 256] : List Nat).sum < 65535 := by
    simp only [List.sum_cons, List.sum_nil]
    omega
  have hpop := populate_checksum_eq
    [8, 0, 0, 0, identifier % 65536 / 256, identifier % 256,
      sequence_num % 65536 / 256, sequence_num % 256] (by simp) hsum
  obtain ⟨c0, c1, hpop2⟩ : ∃ c0 c1, populate_checksum
      [8, 0, 0, 0, identifier % 65536 / 256, identifier % 256,
        sequence_num % 65536 / 256, sequence_num % 256] =
      some [8, 0, c0, c1, identifier % 65536 / 256, identifier % 256,
        sequence_num % 65536 / 256, sequence_num % 256] := ⟨_, _, hpop⟩
  refine ⟨8 :: 0 :: c0 :: c1 :: identifier % 65536 / 256 :: identifier % 256 ::
      sequence_num % 65536 / 256 :: sequence_num % 256 :: extdata,
    ⟨.EchoRequest (identifier % 65536 / 256 * 256 + identifier % 256)
      (sequence_num % 65536 / 256 * 256 + sequence_num % 256), c0 * 256 + c1, extdata⟩,
    ?_, tryFromV4_echo_shape c0 c1 _ _ _ _ extdata, ?_, rfl⟩
  · have hc : construct_echo_request_v4 identifier sequence_num extdata =
        (populate_checksum [8, 0, 0, 0, identifier % 65536 / 256, identifier % 256,
          sequence_num % 65536 / 256, sequence_num % 256]).map (fun h => h ++ extdata) := rfl
    rw [hc, hpop2]
    rfl
  · show ICMPv4Type.EchoRequest _ _ = ICMPv4Type.EchoRequest identifier sequence_num
    have h1 : identifier % 65536 / 256 * 256 + identifier % 256 = identifier := by omega
    have h2 : sequence_num % 65536 / 256 * 256 + sequence_num % 256 = sequence_num := by omega
    rw [h1, h2]

/-- Witness for C6 at id `0xBEEF`, sequence 1 and payload `[1, 2, 3]`. -/
theorem c6_witness :
    ∃ bytes m, construct_echo_request_v4 48879 1 [1, 2, 3] = some bytes ∧
      tryFromV4 bytes = .ok m ∧
      m.icmpv4_type = .EchoRequest 48879 1 ∧
      m.icmpv4_data = [1, 2, 3] :=
  c6_echo_roundtrip 48879 1 [1, 2, 3] (by decide) (by decide)
